import Mathlib

/-!
Verification of the EWAH compressed-bitmap implementation (`ewah/ewah.go`).

Words are 64-bit Go `int64` values, modelled as `Nat` below `2^64` (two's
complement: the Go constant `^0` is `allOnes = 2^64 - 1`, `^1` is
`2^64 - 2`).  The word buffer is a `List Nat` whose length plays the role
of Go's `len(buffer)` (which always equals `cap(buffer)` here, since every
(re)allocation is a `make` of the exact size).  Reads that Go would panic
on (index out of range) are modelled by returning `none`; functions whose
loops can run off the buffer therefore return `Option` results, where
`none` is a runtime panic.  Loops are written with an explicit fuel
argument; call sites pass fuel provably larger than the number of
iterations the Go loop can perform before returning or panicking.

The running-length-word accessors, the raw and buffered iterators and the
population count live in files of the repository that are not part of the
sources here; they are modelled from the specification (§3, §4.1, §4.6,
§4.7, C1) and marked `Modelled from the spec:` below.
-/

/-- `wordInBits` from `ewah.go`: the number of bits in a word. -/
def wordInBits : Nat := 64

/-- The all-ones 64-bit word, Go `^0` on `int64`. -/
def allOnes : Nat := 2 ^ 64 - 1

/-- Modelled from the spec: `LargestRunningLengthCount = 2^32 - 1` (§3). -/
def LargestRunningLengthCount : Nat := 2 ^ 32 - 1

/-- Modelled from the spec: `LargestLiteralCount = 2^31 - 1` (§3). -/
def LargestLiteralCount : Nat := 2 ^ 31 - 1

/-- Go `math.MaxInt32`. -/
def maxInt32 : Int := 2147483647

/-- Modelled from the spec: RLW layout (§3): bit 0 is the running bit. -/
def rlwGetRunningBit (w : Nat) : Bool := w % 2 = 1

/-- Modelled from the spec: RLW layout (§3): bits 1..32 are the running length. -/
def rlwGetRunningLength (w : Nat) : Nat := (w >>> 1) &&& (2 ^ 32 - 1)

/-- Modelled from the spec: RLW layout (§3): bits 33..63 are the literal count. -/
def rlwGetNumberOfLiteralWords (w : Nat) : Nat := (w >>> 33) &&& (2 ^ 31 - 1)

/-- Mask of the running-length field (bits 1..32). -/
def rlwRLMask : Nat := (2 ^ 32 - 1) <<< 1

/-- Mask of the literal-count field (bits 33..63). -/
def rlwNLMask : Nat := (2 ^ 31 - 1) <<< 33

/-- Modelled from the spec: `setRunningBit` writes bit 0 in place (§4.1). -/
def rlwSetRunningBit (w : Nat) (v : Bool) : Nat :=
  if v then w ||| 1 else w &&& (allOnes ^^^ 1)

/-- Modelled from the spec: `setRunningLength` overwrites bits 1..32 with a
bit-exact mask (§4.1).  The argument is a Go `int64`; it is reduced to its
two's-complement word before shifting, as an in-place field store does. -/
def rlwSetRunningLength (w : Nat) (v : Int) : Nat :=
  (w &&& (allOnes ^^^ rlwRLMask)) ||| (((v.emod (2 ^ 64)).toNat <<< 1) &&& rlwRLMask)

/-- Modelled from the spec: `setNumberOfLiteralWords` overwrites bits 33..63
with a bit-exact mask (§4.1). -/
def rlwSetNumberOfLiteralWords (w : Nat) (v : Int) : Nat :=
  (w &&& (allOnes ^^^ rlwNLMask)) ||| (((v.emod (2 ^ 64)).toNat <<< 33) &&& rlwNLMask)

/-- Read a buffer word; Go reads inside the allocation are in range at every
place this helper is used, so no panic case is needed here. -/
def bufGet (b : List Nat) (p : Nat) : Nat := b.getD p 0

/-- The `Ewah` struct of `ewah.go` (the constant fields `defaultBufferSize`
and `wordInBits` are omitted: `Reset` always stores `4` and `64` in them). -/
structure Ewah where
  buffer : List Nat
  actualSizeInWords : Nat
  sizeInBits : Nat
  rlwP : Nat
  adjustContainerSizeWhenAggregating : Bool
deriving Repr, DecidableEq

namespace Ewah

/-- `Reset`: one empty RLW at position 0, `sizeInBits = 0`. -/
def reset (s : Ewah) : Ewah :=
  { buffer := s.buffer.set 0 0
    actualSizeInWords := 1
    sizeInBits := 0
    rlwP := 0
    adjustContainerSizeWhenAggregating := true }

/-- `New()`: a buffer of 4 zero words, then `Reset`. -/
def new : Ewah := reset ⟨[0, 0, 0, 0], 0, 0, 0, true⟩

/-- The word the current RLW view points at (`this.rlw`). -/
def rlwWord (s : Ewah) : Nat := bufGet s.buffer s.rlwP

def rlwBit (s : Ewah) : Bool := rlwGetRunningBit s.rlwWord

def rlwRL (s : Ewah) : Nat := rlwGetRunningLength s.rlwWord

def rlwNL (s : Ewah) : Nat := rlwGetNumberOfLiteralWords s.rlwWord

def rlwSize (s : Ewah) : Nat := s.rlwRL + s.rlwNL

def setRlwWord (s : Ewah) (w : Nat) : Ewah :=
  { s with buffer := s.buffer.set s.rlwP w }

def rlwSetBit (s : Ewah) (v : Bool) : Ewah :=
  s.setRlwWord (rlwSetRunningBit s.rlwWord v)

def rlwSetRL (s : Ewah) (v : Int) : Ewah :=
  s.setRlwWord (rlwSetRunningLength s.rlwWord v)

def rlwSetNL (s : Ewah) (v : Int) : Ewah :=
  s.setRlwWord (rlwSetNumberOfLiteralWords s.rlwWord v)

/-- Go's 32-bit signed wrap-around, for the capacity arithmetic of
`pushBackMultiple` (all of `bufferCap`, `number`, `newSize` are `int32`). -/
def s32 (n : Int) : Int := (n + 2 ^ 31).emod (2 ^ 32) - 2 ^ 31

/-- The new capacity chosen by `pushBackMultiple` when the buffer is full:
double below 32768 words, else grow by 3/2, saturating at `MaxInt32` when
the `int32` product overflows. -/
def growSize (bufferCap number : Nat) : Int :=
  let x : Int := s32 (bufferCap + number)
  if x + 0 < 32768 then s32 (x * 2)
  else if (s32 (x * 3)).tdiv 2 < x then maxInt32
  else (s32 (x * 3)).tdiv 2

/-- Go `make([]int64, m)` followed by `copy` from `b`: truncates or
zero-pads to exactly `m` words. -/
def resizeTo (b : List Nat) (m : Nat) : List Nat :=
  b.take m ++ List.replicate (m - b.length) 0

/-- Go `copy(b[pos:], ws)`: overwrite in place, silently stopping at the end
of `b`. -/
def listWrite (b : List Nat) (pos : Nat) (ws : List Nat) : List Nat :=
  match ws with
  | [] => b
  | w :: ws' => if pos < b.length then listWrite (b.set pos w) (pos + 1) ws' else b

/-- `pushBackMultiple(data, start, number)`: grows the buffer only when
`actualSizeInWords == cap(buffer)` (the code's condition), re-seats the RLW
(a no-op in this value model), copies, and adds `number` to
`actualSizeInWords` whether or not the copy was truncated. -/
def pushBackMultiple (s : Ewah) (data : List Nat) (start number : Nat) : Ewah :=
  let s :=
    if s.actualSizeInWords = s.buffer.length then
      { s with buffer := resizeTo s.buffer (growSize s.buffer.length number).toNat }
    else s
  { s with
    buffer := listWrite s.buffer s.actualSizeInWords ((data.drop start).take number)
    actualSizeInWords := s.actualSizeInWords + number }

/-- `pushBack(data)` = `pushBackMultiple([]int64{data}, 0, 1)`. -/
def pushBack (s : Ewah) (data : Nat) : Ewah := s.pushBackMultiple [data] 0 1

/-- Push a fresh zero marker word and re-point the current RLW at it (the
`pushBack(0); rlw.reset(buffer, actualSizeInWords-1)` idiom). -/
def newMarker (s : Ewah) : Ewah :=
  let s := s.pushBack 0
  { s with rlwP := s.actualSizeInWords - 1 }

/-- `addEmptyWord(v)`. -/
def addEmptyWord (s : Ewah) (v : Bool) : Ewah :=
  let noLiteralWord := s.rlwNL = 0
  let runlen := s.rlwRL
  let s := if noLiteralWord ∧ runlen = 0 then s.rlwSetBit v else s
  if noLiteralWord ∧ s.rlwBit = v ∧ runlen < LargestRunningLengthCount then
    s.rlwSetRL ((runlen : Int) + 1)
  else
    let s := s.newMarker
    (s.rlwSetBit v).rlwSetRL 1

/-- `addLiteralWord(newdata)`.  The overflow branch (`numberSoFar >=
LargestLiteralCount`) has no `return` in the source, so it falls through
into the normal branch, pushing `newdata` twice; ported as written. -/
def addLiteralWord (s : Ewah) (newdata : Nat) : Ewah :=
  let numberSoFar := s.rlwNL
  let s :=
    if LargestLiteralCount ≤ numberSoFar then
      let s := s.newMarker
      let s := s.rlwSetNL 1
      s.pushBack newdata
    else s
  let s := s.rlwSetNL ((numberSoFar : Int) + 1)
  s.pushBack newdata

/-- The marker-adjustment prologue both stream adders begin with: set the
running bit when the current RLW is empty, or start a fresh marker when the
current one has literals or a foreign running bit. -/
def emptyStreamProlog (s : Ewah) (v : Bool) : Ewah :=
  if s.rlwBit ≠ v ∧ s.rlwSize = 0 then s.rlwSetBit v
  else if s.rlwNL ≠ 0 ∨ s.rlwBit ≠ v then
    let s := s.newMarker
    if v then s.rlwSetBit v else s
  else s

/-- The `for number >= LargestRunningLengthCount` loop of the stream adders,
followed by the trailing `if number > 0` remainder segment.  `fuel` bounds
the iteration count; call sites pass one more than the number of times
`LargestRunningLengthCount` fits into `number`. -/
def emptyStreamLoop (v : Bool) : Nat → Ewah → Int → Ewah
  | 0, s, _ => s
  | fuel + 1, s, number =>
    if (LargestRunningLengthCount : Int) ≤ number then
      let s := s.newMarker
      let s := if v then s.rlwSetBit v else s
      let s := s.rlwSetRL (LargestRunningLengthCount : Int)
      emptyStreamLoop v fuel s (number - LargestRunningLengthCount)
    else if 0 < number then
      let s := s.newMarker
      let s := if v then s.rlwSetBit v else s
      s.rlwSetRL number
    else s

/-- The common body of `addStreamOfEmptyWords` and
`fastAddStreamOfEmptyWords` after the `sizeInBits` update (the two
functions are textually identical from this point on): the prologue, the
absorption `whatWeCanAdd = min(number, LargestLiteralCount - runlen)` -
note the source uses `LargestLiteralCount` here - and the segment loop. -/
def emptyStreamBody (s : Ewah) (v : Bool) (number : Int) : Ewah :=
  let s := s.emptyStreamProlog v
  let runlen := s.rlwRL
  let whatWeCanAdd : Int := min number ((LargestLiteralCount : Int) - runlen)
  let s := s.rlwSetRL ((runlen : Int) + whatWeCanAdd)
  let number := number - whatWeCanAdd
  emptyStreamLoop v (number.toNat / LargestRunningLengthCount + 1) s number

/-- `addStreamOfEmptyWords(v, number)`. -/
def addStreamOfEmptyWords (s : Ewah) (v : Bool) (number : Int) : Ewah :=
  if number = 0 then s
  else
    let s := { s with sizeInBits := ((s.sizeInBits : Int) + number * wordInBits).toNat }
    s.emptyStreamBody v number

/-- `fastAddStreamOfEmptyWords(v, number)`: same, without touching
`sizeInBits` and without the `number == 0` early return. -/
def fastAddStreamOfEmptyWords (s : Ewah) (v : Bool) (number : Int) : Ewah :=
  s.emptyStreamBody v number

/-- `addSignificantBits(newdata, bitsthatmatter)`.  The middle comparison is
the source's `newdata == ^1`, i.e. against `2^64 - 2`, not against the
all-ones word. -/
def addSignificantBits (s : Ewah) (newdata bitsthatmatter : Nat) : Ewah :=
  let s := { s with sizeInBits := s.sizeInBits + bitsthatmatter }
  if newdata = 0 then s.addEmptyWord false
  else if newdata = 2 ^ 64 - 2 then s.addEmptyWord true
  else s.addLiteralWord newdata

/-- `add(newdata)`: append one full word. -/
def add (s : Ewah) (newdata : Nat) : Ewah := s.addSignificantBits newdata wordInBits

/-- The loop of `addStreamOfLiteralWords(data, start, number)`.  Note
`whatWeCanAdd` is computed from `number`, not from `leftOverNumber`, as in
the source; `leftOverNumber` is signed (`int32`). -/
def literalStreamLoop (data : List Nat) (start number : Nat) :
    Nat → Ewah → Int → Ewah
  | 0, s, _ => s
  | fuel + 1, s, leftOverNumber =>
    if 0 < leftOverNumber then
      let numberOfLiteralWords := s.rlwNL
      let whatWeCanAdd : Int :=
        min (number : Int) ((LargestLiteralCount : Int) - numberOfLiteralWords)
      let s := s.rlwSetNL ((numberOfLiteralWords : Int) + whatWeCanAdd)
      let leftOverNumber := leftOverNumber - whatWeCanAdd
      let s := s.pushBackMultiple data start whatWeCanAdd.toNat
      let s := { s with sizeInBits := s.sizeInBits + whatWeCanAdd.toNat * wordInBits }
      if 0 < leftOverNumber then
        literalStreamLoop data start number fuel s.newMarker leftOverNumber
      else s
    else s

/-- `addStreamOfLiteralWords(data, start, number)`. -/
def addStreamOfLiteralWords (s : Ewah) (data : List Nat) (start number : Nat) : Ewah :=
  literalStreamLoop data start number (number + 1) s (number : Int)

/-- `Set(i)`.  Returns `none` (Go `nil`) for `i > MaxInt32 - 64`, `i < 0`
or `i < sizeInBits`; in the source no field is written before these early
returns, so the receiver is untouched when `nil` comes back. -/
def set (s : Ewah) (i : Int) : Option Ewah :=
  if maxInt32 - wordInBits < i ∨ i < 0 then none
  else if i < (s.sizeInBits : Int) then none
  else
    let iN := i.toNat
    let dist := (iN + wordInBits) / wordInBits - (s.sizeInBits + wordInBits - 1) / wordInBits
    let s := { s with sizeInBits := iN + 1 }
    if 0 < dist then
      let s := if 1 < dist then s.fastAddStreamOfEmptyWords false ((dist : Int) - 1) else s
      some (s.addLiteralWord (1 <<< (iN % wordInBits)))
    else if s.rlwNL = 0 then
      let s := s.rlwSetRL ((s.rlwRL : Int) - 1)
      some (s.addLiteralWord (1 <<< (iN % wordInBits)))
    else
      let w := bufGet s.buffer (s.actualSizeInWords - 1) ||| (1 <<< (iN % wordInBits))
      let s := { s with buffer := s.buffer.set (s.actualSizeInWords - 1) w }
      if w = allOnes then
        let s := { s with buffer := s.buffer.set (s.actualSizeInWords - 1) 0 }
        let s := { s with actualSizeInWords := s.actualSizeInWords - 1 }
        let s := s.rlwSetNL ((s.rlwNL : Int) - 1)
        some (s.addEmptyWord true)
      else some s

/-- The segment walk of `Get(i)`.  Reading a marker or literal at an index
at or beyond the end of the buffer is a Go panic, returned as `none`.  The
walk advances `marker` by at least one per iteration, so
`buffer.length + 2` fuel always suffices to reach a return or the panic. -/
def getLoop (b : List Nat) (wordi biti : Nat) : Nat → Nat → Nat → Option Bool
  | 0, _, _ => none
  | fuel + 1, wordChecked, marker =>
    if wordChecked ≤ wordi then
      if marker < b.length then
        let m := bufGet b marker
        let numOfLiteralWords := rlwGetNumberOfLiteralWords m
        let wordChecked := wordChecked + rlwGetRunningLength m
        if wordi < wordChecked then some (rlwGetRunningBit m)
        else if wordi < wordChecked + numOfLiteralWords then
          let idx := marker + (wordi - wordChecked) + 1
          if idx < b.length then some ((bufGet b idx).testBit biti)
          else none
        else getLoop b wordi biti fuel (wordChecked + numOfLiteralWords)
               (marker + numOfLiteralWords + 1)
      else none
    else some false

/-- `Get(i)`.  The range guard is the source's `i < 0 || i > sizeInBits`
(strict on the right). -/
def get (s : Ewah) (i : Int) : Option Bool :=
  if i < 0 ∨ (s.sizeInBits : Int) < i then some false
  else getLoop s.buffer (i.toNat / wordInBits) (i.toNat % wordInBits)
         (s.buffer.length + 2) 0 0

/-- `Size()`. -/
def size (s : Ewah) : Nat := s.sizeInBits

/-- `SizeInWords()`. -/
def sizeInWords (s : Ewah) : Nat := s.actualSizeInWords

/-- Modelled from the spec: `popcount_3` is a population count on a 64-bit
word (component C1). -/
def popcount : Nat → Nat → Nat
  | 0, _ => 0
  | fuel + 1, w => w % 2 + popcount fuel (w / 2)

/-- Sum `popcount` over the literal words `buffer[marker+1 ..
marker+numOfLiteralWords]` of one segment, as the inner loop of
`Cardinality` does; a read past the end of the buffer is a panic. -/
def cardLits (b : List Nat) (marker numOfLiteralWords : Nat) :
    Nat → Nat → Nat → Option Nat
  | 0, _, _ => none
  | fuel + 1, j, counter =>
    if j ≤ numOfLiteralWords then
      if marker + j < b.length then
        cardLits b marker numOfLiteralWords fuel (j + 1)
          (counter + popcount 64 (bufGet b (marker + j)))
      else none
    else some counter

/-- The marker walk of `Cardinality()`. -/
def cardLoop (b : List Nat) (n : Nat) : Nat → Nat → Nat → Option Nat
  | 0, _, _ => none
  | fuel + 1, marker, counter =>
    if marker < n then
      if marker < b.length then
        let m := bufGet b marker
        let counter :=
          if rlwGetRunningBit m then counter + wordInBits * rlwGetRunningLength m
          else counter
        let numOfLiteralWords := rlwGetNumberOfLiteralWords m
        match cardLits b marker numOfLiteralWords (b.length + 2) 1 counter with
        | none => none
        | some counter => cardLoop b n fuel (marker + numOfLiteralWords + 1) counter
      else none
    else some counter

/-- `Cardinality()`. -/
def cardinality (s : Ewah) : Option Nat :=
  cardLoop s.buffer s.actualSizeInWords (s.actualSizeInWords + 2) 0 0

/-- Negate the literal words `buffer[marker+1 .. marker+numOfLiteralWords]`
in place, as the inner loop of `Not` does; writing past the end of the
buffer is a panic. -/
def notLits (marker numOfLiteralWords : Nat) : Nat → Nat → List Nat → Option (List Nat)
  | 0, _, _ => none
  | fuel + 1, j, b =>
    if j ≤ numOfLiteralWords then
      if marker + j < b.length then
        notLits marker numOfLiteralWords fuel (j + 1)
          (b.set (marker + j) (allOnes ^^^ bufGet b (marker + j)))
      else none
    else some b

/-- The marker walk of `Not()`.  The final-segment special treatment is
ported as written: when the last segment has no literal words, a positive
running length and a (flipped) running bit of one, the source stores
`numberOfLiteralWords - 1` (i.e. `-1`) into the literal-count field and
appends the literal `uint64(0) >> (64 - lastBits)`, which is zero. -/
def notLoop : Nat → Ewah → Nat → Option Ewah
  | 0, _, _ => none
  | fuel + 1, s, marker =>
    if marker < s.actualSizeInWords then
      if marker < s.buffer.length then
        let m := bufGet s.buffer marker
        let numOfLiteralWords := rlwGetNumberOfLiteralWords m
        let s := { s with
          buffer := s.buffer.set marker (rlwSetRunningBit m (!rlwGetRunningBit m)) }
        match notLits marker numOfLiteralWords (s.buffer.length + 2) 1 s.buffer with
        | none => none
        | some b =>
          let s := { s with buffer := b }
          if marker + numOfLiteralWords + 1 = s.actualSizeInWords then
            let lastBits := s.sizeInBits % wordInBits
            if lastBits = 0 then some s
            else
              let m := bufGet s.buffer marker
              if rlwGetNumberOfLiteralWords m = 0 then
                if 0 < rlwGetRunningLength m ∧ rlwGetRunningBit m then
                  let w := rlwSetNumberOfLiteralWords m ((rlwGetNumberOfLiteralWords m : Int) - 1)
                  let s := { s with buffer := s.buffer.set marker w }
                  some (s.addLiteralWord ((0 : Nat) >>> (wordInBits - lastBits)))
                else some s
              else
                let idx := marker + numOfLiteralWords
                let w := bufGet s.buffer idx &&& (allOnes >>> (wordInBits - lastBits))
                let s := { s with buffer := s.buffer.set idx w }
                some s
          else notLoop fuel s (marker + numOfLiteralWords + 1)
      else none
    else some s

/-- `Not()`: in-place complement. -/
def not (s : Ewah) : Option Ewah := notLoop (s.actualSizeInWords + 2) s 0

/-- `setSizeInBits(size)`: refuses (with an error the merge callers ignore,
leaving the state as is) any change that would alter the number of last
words; otherwise stores the new size. -/
def setSizeInBits (s : Ewah) (sz : Nat) : Ewah :=
  if (sz + wordInBits - 1) / wordInBits ≠ (s.sizeInBits + wordInBits - 1) / wordInBits
  then s
  else { s with sizeInBits := sz }

/-- `reserve(size)`: grow the buffer and re-point the RLW at position 0. -/
def reserve (s : Ewah) (size : Nat) : Ewah :=
  if s.buffer.length < size then
    { s with buffer := resizeTo s.buffer size, rlwP := 0 }
  else s

end Ewah

/-- Modelled from the spec: the buffered RLW iterator (§4.7) - a raw
iterator (§4.6: `buffer`, populated length `length`, cursor `pointer`)
together with the consumable working copy of the current segment: its
running bit `brb`, remaining running length `brl`, remaining literal count
`bnl`, and the buffer index `litPos` of the first still-pending literal. -/
structure BRLW where
  buffer : List Nat
  length : Nat
  pointer : Nat
  brb : Bool
  brl : Nat
  bnl : Nat
  litPos : Nat
deriving Repr, DecidableEq

namespace BRLW

/-- Modelled from the spec: pull the next segment from the raw iterator
into the working copy (§4.6 `next()`), or leave the iterator dry. -/
def loadNext (it : BRLW) : BRLW :=
  if it.pointer < it.length then
    let m := bufGet it.buffer it.pointer
    { it with
      brb := rlwGetRunningBit m
      brl := rlwGetRunningLength m
      bnl := rlwGetNumberOfLiteralWords m
      litPos := it.pointer + 1
      pointer := it.pointer + rlwGetNumberOfLiteralWords m + 1 }
  else { it with brb := false, brl := 0, bnl := 0 }

/-- Modelled from the spec: a buffered iterator over the first `n` words of
`b`, with the first segment loaded. -/
def init (b : List Nat) (n : Nat) : BRLW :=
  loadNext { buffer := b, length := n, pointer := 0, brb := false, brl := 0, bnl := 0, litPos := 0 }

/-- Modelled from the spec: total logical words in the segments the raw
iterator has not yet yielded. -/
def sizeAhead (b : List Nat) (n : Nat) : Nat → Nat → Nat
  | 0, _ => 0
  | fuel + 1, pointer =>
    if pointer < n then
      let m := bufGet b pointer
      rlwGetRunningLength m + rlwGetNumberOfLiteralWords m +
        sizeAhead b n fuel (pointer + rlwGetNumberOfLiteralWords m + 1)
    else 0

/-- Modelled from the spec: `size()` - the logical words remaining in the
working copy plus all future segments; zero means dry (§4.7). -/
def size (it : BRLW) : Nat :=
  it.brl + it.bnl + sizeAhead it.buffer it.length (it.length + 2) it.pointer

/-- Modelled from the spec: `getRunningBit` of the working copy. -/
def getRunningBit (it : BRLW) : Bool := it.brb

/-- Modelled from the spec: `getRunningLength` of the working copy. -/
def getRunningLength (it : BRLW) : Nat := it.brl

/-- Modelled from the spec: `getNumberOfLiteralWords` of the working copy. -/
def getNumberOfLiteralWords (it : BRLW) : Nat := it.bnl

/-- Modelled from the spec: `getLiteralWordAt(k)` - the k-th pending
literal of the current segment (§4.7). -/
def getLiteralWordAt (it : BRLW) (k : Nat) : Nat := bufGet it.buffer (it.litPos + k)

/-- Modelled from the spec: `discardFirstWords(n)` - peel `n` logical words
off the working copy, running span first, then literals, pulling the next
segment exactly when the working copy is fully consumed (§4.7). -/
def discardLoop : Nat → BRLW → Nat → BRLW
  | 0, it, _ => it
  | fuel + 1, it, n =>
    if n = 0 then
      if it.brl = 0 ∧ it.bnl = 0 then it.loadNext else it
    else if 0 < it.brl then
      let d := min n it.brl
      discardLoop fuel { it with brl := it.brl - d } (n - d)
    else if 0 < it.bnl then
      let d := min n it.bnl
      discardLoop fuel { it with bnl := it.bnl - d, litPos := it.litPos + d } (n - d)
    else if it.pointer < it.length then
      discardLoop fuel it.loadNext n
    else it

/-- Modelled from the spec: `discardFirstWords(n)`. -/
def discardFirstWords (it : BRLW) (n : Nat) : BRLW :=
  discardLoop (2 * n + it.length + 4) it n

/-- Modelled from the spec: feed `d` pending literals of the current
segment into the sink, one `add` per word, negated when `neg` (§4.7). -/
def addLits (it : BRLW) (neg : Bool) (sink : Ewah) (d : Nat) : Ewah :=
  (List.range d).foldl
    (fun sink k =>
      sink.add (if neg then allOnes ^^^ it.getLiteralWordAt k else it.getLiteralWordAt k))
    sink

/-- Modelled from the spec: the loop of `discharge(sink, n)` (and of
`dischargeNegated` when `neg`): copy up to `n` logical words into the sink,
running span first as a homogeneous stream, then the literals one by one,
continuing with the next segment until `n` words were discharged or the
iterator is dry; returns the number actually discharged (§4.7). -/
def dischargeLoop (neg : Bool) : Nat → BRLW → Ewah → Nat → Nat → Nat × BRLW × Ewah
  | 0, it, sink, _, index => (index, it, sink)
  | fuel + 1, it, sink, n, index =>
    if n = 0 then
      (index, (if it.brl = 0 ∧ it.bnl = 0 then it.loadNext else it), sink)
    else if 0 < it.brl then
      let d := min n it.brl
      let sink := sink.addStreamOfEmptyWords (if neg then !it.brb else it.brb) (d : Int)
      dischargeLoop neg fuel { it with brl := it.brl - d } sink (n - d) (index + d)
    else if 0 < it.bnl then
      let d := min n it.bnl
      let sink := it.addLits neg sink d
      dischargeLoop neg fuel { it with bnl := it.bnl - d, litPos := it.litPos + d } sink
        (n - d) (index + d)
    else if it.pointer < it.length then
      dischargeLoop neg fuel it.loadNext sink n index
    else (index, it, sink)

/-- Modelled from the spec: `discharge(sink, n)` (§4.7). -/
def discharge (it : BRLW) (sink : Ewah) (n : Nat) : Nat × BRLW × Ewah :=
  dischargeLoop false (2 * n + it.length + 4) it sink n 0

/-- Modelled from the spec: `dischargeNegated(sink, n)` (§4.7). -/
def dischargeNegated (it : BRLW) (sink : Ewah) (n : Nat) : Nat × BRLW × Ewah :=
  dischargeLoop true (2 * n + it.length + 4) it sink n 0

/-- Modelled from the spec: `dischargeContainer(sink)` =
`discharge(sink, size())` (§4.7). -/
def dischargeContainer (it : BRLW) (sink : Ewah) : BRLW × Ewah :=
  let r := it.discharge sink it.size
  (r.2.1, r.2.2)

/-- Modelled from the spec: `dischargeAsEmpty(sink)` emits `size()`
zero-words (§4.7). -/
def dischargeAsEmpty (it : BRLW) (sink : Ewah) : Ewah :=
  sink.addStreamOfEmptyWords false (it.size : Int)

end BRLW

namespace Ewah

/-- The run-drain loop of `andToContainer` (`for rlwi.getRunningLength() >
0 || rlwj.getRunningLength() > 0`).  In the running-bit-one branch the
source discharges the *predator* (not the prey) and then re-reads the
predator's running length after the discharge mutated it; ported with that
exact sequencing. -/
def andInner : Nat → BRLW → BRLW → Ewah → Option (BRLW × BRLW × Ewah)
  | 0, _, _, _ => none
  | fuel + 1, rlwi, rlwj, container =>
    if 0 < rlwi.getRunningLength ∨ 0 < rlwj.getRunningLength then
      let iIsPrey := rlwi.getRunningLength < rlwj.getRunningLength
      let prey := if iIsPrey then rlwi else rlwj
      let predator := if iIsPrey then rlwj else rlwi
      if predator.getRunningBit = false then
        let predRL := predator.getRunningLength
        let container := container.addStreamOfEmptyWords false (predRL : Int)
        let prey := prey.discardFirstWords predRL
        let predator := predator.discardFirstWords predRL
        andInner fuel (if iIsPrey then prey else predator)
          (if iIsPrey then predator else prey) container
      else
        let predRL := predator.getRunningLength
        let r := predator.discharge container predRL
        let index := r.1
        let predator := r.2.1
        let container := r.2.2
        let container :=
          container.addStreamOfEmptyWords false ((predator.getRunningLength : Int) - index)
        let predator := predator.discardFirstWords predator.getRunningLength
        andInner fuel (if iIsPrey then prey else predator)
          (if iIsPrey then predator else prey) container
    else some (rlwi, rlwj, container)

/-- The outer loop of `andToContainer`. -/
def andOuter : Nat → BRLW → BRLW → Ewah → Option (BRLW × BRLW × Ewah)
  | 0, _, _, _ => none
  | fuel + 1, rlwi, rlwj, container =>
    if 0 < rlwi.size ∧ 0 < rlwj.size then
      match andInner (rlwi.size + rlwj.size + 2) rlwi rlwj container with
      | none => none
      | some (rlwi, rlwj, container) =>
        let nbreLiteral := min rlwi.getNumberOfLiteralWords rlwj.getNumberOfLiteralWords
        if 0 < nbreLiteral then
          let container := (List.range nbreLiteral).foldl
            (fun c k => c.add (rlwi.getLiteralWordAt k &&& rlwj.getLiteralWordAt k)) container
          andOuter fuel (rlwi.discardFirstWords nbreLiteral)
            (rlwj.discardFirstWords nbreLiteral) container
        else andOuter fuel rlwi rlwj container
    else some (rlwi, rlwj, container)

/-- `andToContainer(a, container)`: iterator `i` walks `a`, iterator `j`
walks the receiver. -/
def andToContainer (this a container : Ewah) : Option Ewah :=
  let rlwi := BRLW.init a.buffer a.actualSizeInWords
  let rlwj := BRLW.init this.buffer this.actualSizeInWords
  match andOuter (rlwi.size + rlwj.size + 4) rlwi rlwj container with
  | none => none
  | some (rlwi, rlwj, container) =>
    if this.adjustContainerSizeWhenAggregating then
      let iRemains := 0 < rlwi.size
      let remaining := if iRemains then rlwi else rlwj
      let container := remaining.dischargeAsEmpty container
      some (container.setSizeInBits (max this.sizeInBits a.sizeInBits))
    else some container

/-- The run-drain loop of `orToContainer`. -/
def orInner : Nat → BRLW → BRLW → Ewah → Option (BRLW × BRLW × Ewah)
  | 0, _, _, _ => none
  | fuel + 1, rlwi, rlwj, container =>
    if 0 < rlwi.getRunningLength ∨ 0 < rlwj.getRunningLength then
      let iIsPrey := rlwi.getRunningLength < rlwj.getRunningLength
      let prey := if iIsPrey then rlwi else rlwj
      let predator := if iIsPrey then rlwj else rlwi
      if predator.getRunningBit = true then
        let predRL := predator.getRunningLength
        let container := container.addStreamOfEmptyWords true (predRL : Int)
        let prey := prey.discardFirstWords predRL
        let predator := predator.discardFirstWords predRL
        orInner fuel (if iIsPrey then prey else predator)
          (if iIsPrey then predator else prey) container
      else
        let predRL := predator.getRunningLength
        let r := prey.discharge container predRL
        let index := r.1
        let prey := r.2.1
        let container := r.2.2
        let container := container.addStreamOfEmptyWords false ((predRL : Int) - index)
        let predator := predator.discardFirstWords predRL
        orInner fuel (if iIsPrey then prey else predator)
          (if iIsPrey then predator else prey) container
    else some (rlwi, rlwj, container)

/-- The outer loop of `orToContainer`. -/
def orOuter : Nat → BRLW → BRLW → Ewah → Option (BRLW × BRLW × Ewah)
  | 0, _, _, _ => none
  | fuel + 1, rlwi, rlwj, container =>
    if 0 < rlwi.size ∧ 0 < rlwj.size then
      match orInner (rlwi.size + rlwj.size + 2) rlwi rlwj container with
      | none => none
      | some (rlwi, rlwj, container) =>
        let nbreLiteral := min rlwi.getNumberOfLiteralWords rlwj.getNumberOfLiteralWords
        if 0 < nbreLiteral then
          let container := (List.range nbreLiteral).foldl
            (fun c k => c.add (rlwi.getLiteralWordAt k ||| rlwj.getLiteralWordAt k)) container
          orOuter fuel (rlwi.discardFirstWords nbreLiteral)
            (rlwj.discardFirstWords nbreLiteral) container
        else orOuter fuel rlwi rlwj container
    else some (rlwi, rlwj, container)

/-- `orToContainer(a, container)`. -/
def orToContainer (this a container : Ewah) : Option Ewah :=
  let rlwi := BRLW.init a.buffer a.actualSizeInWords
  let rlwj := BRLW.init this.buffer this.actualSizeInWords
  match orOuter (rlwi.size + rlwj.size + 4) rlwi rlwj container with
  | none => none
  | some (rlwi, rlwj, container) =>
    let iRemains := 0 < rlwi.size
    let remaining := if iRemains then rlwi else rlwj
    let r := remaining.dischargeContainer container
    some (r.2.setSizeInBits (max this.sizeInBits a.sizeInBits))

/-- The run-drain loop of `xorToContainer`. -/
def xorInner : Nat → BRLW → BRLW → Ewah → Option (BRLW × BRLW × Ewah)
  | 0, _, _, _ => none
  | fuel + 1, rlwi, rlwj, container =>
    if 0 < rlwi.getRunningLength ∨ 0 < rlwj.getRunningLength then
      let iIsPrey := rlwi.getRunningLength < rlwj.getRunningLength
      let prey := if iIsPrey then rlwi else rlwj
      let predator := if iIsPrey then rlwj else rlwi
      if predator.getRunningBit = false then
        let predRL := predator.getRunningLength
        let r := prey.discharge container predRL
        let index := r.1
        let prey := r.2.1
        let container := r.2.2
        let container := container.addStreamOfEmptyWords false ((predRL : Int) - index)
        let predator := predator.discardFirstWords predRL
        xorInner fuel (if iIsPrey then prey else predator)
          (if iIsPrey then predator else prey) container
      else
        let predRL := predator.getRunningLength
        let r := prey.dischargeNegated container predRL
        let index := r.1
        let prey := r.2.1
        let container := r.2.2
        let container := container.addStreamOfEmptyWords true ((predRL : Int) - index)
        let predator := predator.discardFirstWords predRL
        xorInner fuel (if iIsPrey then prey else predator)
          (if iIsPrey then predator else prey) container
    else some (rlwi, rlwj, container)

/-- The outer loop of `xorToContainer`. -/
def xorOuter : Nat → BRLW → BRLW → Ewah → Option (BRLW × BRLW × Ewah)
  | 0, _, _, _ => none
  | fuel + 1, rlwi, rlwj, container =>
    if 0 < rlwi.size ∧ 0 < rlwj.size then
      match xorInner (rlwi.size + rlwj.size + 2) rlwi rlwj container with
      | none => none
      | some (rlwi, rlwj, container) =>
        let nbreLiteral := min rlwi.getNumberOfLiteralWords rlwj.getNumberOfLiteralWords
        if 0 < nbreLiteral then
          let container := (List.range nbreLiteral).foldl
            (fun c k => c.add (rlwi.getLiteralWordAt k ^^^ rlwj.getLiteralWordAt k)) container
          xorOuter fuel (rlwi.discardFirstWords nbreLiteral)
            (rlwj.discardFirstWords nbreLiteral) container
        else xorOuter fuel rlwi rlwj container
    else some (rlwi, rlwj, container)

/-- `xorToContainer(a, container)`. -/
def xorToContainer (this a container : Ewah) : Option Ewah :=
  let rlwi := BRLW.init a.buffer a.actualSizeInWords
  let rlwj := BRLW.init this.buffer this.actualSizeInWords
  match xorOuter (rlwi.size + rlwj.size + 4) rlwi rlwj container with
  | none => none
  | some (rlwi, rlwj, container) =>
    let iRemains := 0 < rlwi.size
    let remaining := if iRemains then rlwi else rlwj
    let r := remaining.dischargeContainer container
    some (r.2.setSizeInBits (max this.sizeInBits a.sizeInBits))

/-- The run-drain loop of `andNotToContainer` (here `rlwi` walks the
receiver and `rlwj` walks the argument). -/
def andNotInner : Nat → BRLW → BRLW → Ewah → Option (BRLW × BRLW × Ewah)
  | 0, _, _, _ => none
  | fuel + 1, rlwi, rlwj, container =>
    if 0 < rlwi.getRunningLength ∨ 0 < rlwj.getRunningLength then
      let iIsPrey := rlwi.getRunningLength < rlwj.getRunningLength
      let prey := if iIsPrey then rlwi else rlwj
      let predator := if iIsPrey then rlwj else rlwi
      if (predator.getRunningBit = true ∧ iIsPrey) ∨
          (predator.getRunningBit = false ∧ ¬iIsPrey) then
        let predRL := predator.getRunningLength
        let container := container.addStreamOfEmptyWords false (predRL : Int)
        let prey := prey.discardFirstWords predRL
        let predator := predator.discardFirstWords predRL
        andNotInner fuel (if iIsPrey then prey else predator)
          (if iIsPrey then predator else prey) container
      else if iIsPrey then
        let predRL := predator.getRunningLength
        let r := prey.discharge container predRL
        let index := r.1
        let prey := r.2.1
        let container := r.2.2
        let container := container.addStreamOfEmptyWords false ((predRL : Int) - index)
        let predator := predator.discardFirstWords predRL
        andNotInner fuel (if iIsPrey then prey else predator)
          (if iIsPrey then predator else prey) container
      else
        let predRL := predator.getRunningLength
        let r := prey.dischargeNegated container predRL
        let index := r.1
        let prey := r.2.1
        let container := r.2.2
        let container := container.addStreamOfEmptyWords true ((predRL : Int) - index)
        let predator := predator.discardFirstWords predRL
        andNotInner fuel (if iIsPrey then prey else predator)
          (if iIsPrey then predator else prey) container
    else some (rlwi, rlwj, container)

/-- The outer loop of `andNotToContainer`; the literal combiner is Go's
`&^` (and-not). -/
def andNotOuter : Nat → BRLW → BRLW → Ewah → Option (BRLW × BRLW × Ewah)
  | 0, _, _, _ => none
  | fuel + 1, rlwi, rlwj, container =>
    if 0 < rlwi.size ∧ 0 < rlwj.size then
      match andNotInner (rlwi.size + rlwj.size + 2) rlwi rlwj container with
      | none => none
      | some (rlwi, rlwj, container) =>
        let nbreLiteral := min rlwi.getNumberOfLiteralWords rlwj.getNumberOfLiteralWords
        if 0 < nbreLiteral then
          let container := (List.range nbreLiteral).foldl
            (fun c k =>
              c.add (rlwi.getLiteralWordAt k &&& (allOnes ^^^ rlwj.getLiteralWordAt k)))
            container
          andNotOuter fuel (rlwi.discardFirstWords nbreLiteral)
            (rlwj.discardFirstWords nbreLiteral) container
        else andNotOuter fuel rlwi rlwj container
    else some (rlwi, rlwj, container)

/-- `andNotToContainer(a, container)`. -/
def andNotToContainer (this a container : Ewah) : Option Ewah :=
  let rlwi := BRLW.init this.buffer this.actualSizeInWords
  let rlwj := BRLW.init a.buffer a.actualSizeInWords
  match andNotOuter (rlwi.size + rlwj.size + 4) rlwi rlwj container with
  | none => none
  | some (rlwi, rlwj, container) =>
    let iRemains := 0 < rlwi.size
    let remaining := if iRemains then rlwi else rlwj
    let container :=
      if iRemains then (remaining.dischargeContainer container).2
      else if this.adjustContainerSizeWhenAggregating then
        remaining.dischargeAsEmpty container
      else container
    if this.adjustContainerSizeWhenAggregating then
      some (container.setSizeInBits (max this.sizeInBits a.sizeInBits))
    else some container

/-- `bitOp`: a fresh container reserved to the larger operand. -/
def bitOpContainer (this a : Ewah) : Ewah :=
  Ewah.new.reserve (max this.actualSizeInWords a.actualSizeInWords)

/-- `And(a)`. -/
def and (this a : Ewah) : Option Ewah :=
  this.andToContainer a (bitOpContainer this a)

/-- `Or(a)`. -/
def or (this a : Ewah) : Option Ewah :=
  this.orToContainer a (bitOpContainer this a)

/-- `Xor(a)`. -/
def xor (this a : Ewah) : Option Ewah :=
  this.xorToContainer a (bitOpContainer this a)

/-- `AndNot(a)`. -/
def andNot (this a : Ewah) : Option Ewah :=
  this.andNotToContainer a (bitOpContainer this a)

end Ewah

/-- `Set` each index of `l` in turn on `s`, failing if any call is refused:
a bitmap `b` with `setAll Ewah.new l = some b` is built by the public API. -/
def setAll (s : Ewah) (l : List Int) : Option Ewah := l.foldlM Ewah.set s

/-- Totalised ascending construction (a refused `Set` keeps the state); the
claims below always pair a `buildAsc` value with a `setAll .. = some ..`
conjunct showing no call was actually refused. -/
def buildAsc (l : List Int) : Ewah :=
  l.foldl (fun s i => (s.set i).getD s) Ewah.new

/-- Bits 1..63 of word 0, whose literal word is `2^64 - 2` (Go `^1`). -/
def idx63 : List Int := (List.range 63).map fun n => ((n : Int) + 1)

/-- The bitmap {1,...,63}. -/
def dense63 : Ewah := buildAsc idx63

/-- The bitmap {70}. -/
def single70 : Ewah := buildAsc [70]

/-- The logical words one segment contributes (§3): `runningLength` copies
of the uniform word followed by the `numberOfLiteralWords` literals that
physically follow the marker at `q`. -/
def segWords (b : List Nat) (q : Nat) : List Nat :=
  List.replicate (rlwGetRunningLength (bufGet b q))
      (if rlwGetRunningBit (bufGet b q) then allOnes else 0) ++
    (b.drop (q + 1)).take (rlwGetNumberOfLiteralWords (bufGet b q))

/-- `SegRep b n q p ws`: starting at marker `q`, the segments tile
`[q, n)` exactly, the last marker sits at `p`, and the logical expansion of
those segments is the word list `ws` (spec §3, invariants 2 and 4). -/
inductive SegRep (b : List Nat) (n : Nat) : Nat → Nat → List Nat → Prop
  | last (q : Nat) (h : q + rlwGetNumberOfLiteralWords (bufGet b q) + 1 = n) :
      SegRep b n q q (segWords b q)
  | step (q p : Nat) (ws : List Nat)
      (h : SegRep b n (q + rlwGetNumberOfLiteralWords (bufGet b q) + 1) p ws) :
      SegRep b n q p (segWords b q ++ ws)

/-- A bitmap represents the word list `ws`: its populated buffer tiles into
segments whose expansion is `ws`, with the current RLW on the last marker. -/
def RepWords (s : Ewah) (ws : List Nat) : Prop :=
  SegRep s.buffer s.actualSizeInWords 0 s.rlwP ws

/-- Bit `i` of the infinite bit string a word list denotes (words beyond
the end read as zero). -/
def wordsBit (ws : List Nat) (i : Nat) : Bool :=
  (ws.getD (i / wordInBits) 0).testBit (i % wordInBits)

/-- Total number of one bits in a word list. -/
def onesCount (ws : List Nat) : Nat := (ws.map (Ewah.popcount 64)).sum

/-- The well-formedness a bitmap reachable by ascending `Set` calls
enjoys: it represents some word list `ws`; the populated words fit the
buffer; all words are 64-bit; `sizeInBits` is within the last logical word
(spec §3 invariant 3); bits at or above `sizeInBits` are zero; a tail
segment without literal words only occurs at a word boundary; and the
total size stays below the `Set` range bound. -/
structure GoodRep (s : Ewah) (ws : List Nat) : Prop where
  rep : RepWords s ws
  asw_le : s.actualSizeInWords ≤ s.buffer.length
  words_lt : ∀ w ∈ s.buffer, w < 2 ^ 64
  size_le : s.sizeInBits ≤ wordInBits * ws.length
  size_gt : wordInBits * ws.length < s.sizeInBits + wordInBits
  tail_zero : ∀ i, s.sizeInBits ≤ i → wordsBit ws i = false
  last_nl : s.rlwNL = 0 → s.sizeInBits % wordInBits = 0
  size_bound : s.sizeInBits ≤ 2 ^ 31 - 64

/-- Open `q` fresh full-length segments (running length
`LargestRunningLengthCount`), as the claimed stream policy describes. -/
def policyFullSegs (v : Bool) : Nat → Ewah → Ewah
  | 0, s => s
  | q + 1, s =>
    let s := s.newMarker
    let s := if v then s.rlwSetBit v else s
    let s := s.rlwSetRL (LargestRunningLengthCount : Int)
    policyFullSegs v q s

/-- The `addStreamOfEmptyWords(v, n)` policy stated by the claim (§4.2),
parametrised by the absorb cap: no-op at `n = 0`; grow `sizeInBits` by
`64·n`; adjust the tail marker; absorb `min(n, cap - rl)` words into the
current running length; then open full-length segments and one remainder
segment for whatever is left.  The claim words the cap as
`LargestRunningLengthCount`; the source computes it from
`LargestLiteralCount`. -/
def streamPolicy (cap : Nat) (s : Ewah) (v : Bool) (number : Int) : Ewah :=
  if number = 0 then s
  else
    let s := { s with sizeInBits := ((s.sizeInBits : Int) + number * wordInBits).toNat }
    let s := s.emptyStreamProlog v
    let runlen := s.rlwRL
    let whatWeCanAdd : Int := min number ((cap : Int) - runlen)
    let s := s.rlwSetRL ((runlen : Int) + whatWeCanAdd)
    let rest := number - whatWeCanAdd
    let q := rest.toNat / LargestRunningLengthCount
    let r := rest.toNat % LargestRunningLengthCount
    let s := policyFullSegs v q s
    if 0 < r then
      let s := s.newMarker
      let s := if v then s.rlwSetBit v else s
      s.rlwSetRL (r : Int)
    else s



/-! ## Theorems for the concretely settled claims -/

set_option maxRecDepth 16384

/-- Claim C7: `Set(i)` with `i < 0`, `i > MaxInt32 - 64` or
`i < sizeInBits` returns the distinguished absent value (Go `nil`,
modelled as `none`).  In the source both early returns precede every field
write, so the receiver's observable state (`Size`, `SizeInWords`,
`Cardinality`, every `Get`) is exactly as before the call; in this pure
model that is witnessed by `set` producing no successor state at all. -/
theorem C7_set_refused (s : Ewah) (i : Int)
    (h : i < 0 ∨ maxInt32 - (wordInBits : Int) < i ∨ i < (s.sizeInBits : Int)) :
    s.set i = none := by
  unfold Ewah.set
  split
  · rfl
  · next h1 =>
    split
    · rfl
    · next h2 =>
      exfalso
      rcases h with h | h | h
      · exact h1 (Or.inr h)
      · exact h1 (Or.inl h)
      · exact h2 h

/-- Witness for C7 at the concrete input `i = -1` on a fresh bitmap. -/
theorem C7_set_refused_witness :
    ((-1 : Int) < 0 ∨ maxInt32 - (wordInBits : Int) < (-1 : Int) ∨
      (-1 : Int) < (Ewah.new.sizeInBits : Int)) ∧ Ewah.new.set (-1) = none :=
  ⟨Or.inl (by decide), C7_set_refused Ewah.new (-1) (Or.inl (by decide))⟩

/-- Claim C8 (refuted at a concrete input): a fresh bitmap is built by the
public API and has `Size() = 0`, so `i = 0` is out of range, yet `Get(0)`
does not return `false`: the guard `i > sizeInBits` lets `i = sizeInBits`
through, the segment walk runs past the populated words onto the zero
words of the allocation and then indexes the buffer out of range (a Go
runtime panic, `none` here). -/
theorem C8_get_out_of_range_panics :
    Ewah.new.size = 0 ∧ Ewah.new.get 0 = none := by
  constructor
  · rfl
  · rfl

/-- Claim C1 (refuted at a concrete input): setting the strictly ascending
sequence `[63]` succeeds and `Get(63)` is true, but `Get(64)` - an index
not in the sequence - panics instead of returning false: `64 = sizeInBits`
passes the `i > sizeInBits` guard and the walk runs off the end of the
4-word allocation. -/
theorem C1_ascending_set_get_panics :
    setAll Ewah.new [63] = some (buildAsc [63]) ∧
    (buildAsc [63]).get 63 = some true ∧
    (buildAsc [63]).get 64 = none := by
  refine ⟨rfl, rfl, rfl⟩

/-- Claim C10 (refuted at a concrete input): `add(w)` for
`w = 2^64 - 2` (Go `^1`, all bits but bit 0) appends a logical word that
differs from `w`: `addSignificantBits` compares `newdata` against `^1`
instead of `^0`, folds the word into a run of ones, and the appended word
reads as all-ones - bit 0 of `w` is zero but `Get(0)` is true and the
cardinality is 64 instead of 63. -/
theorem C10_add_folds_wrong_word :
    (2 ^ 64 - 2 : Nat).testBit 0 = false ∧
    (Ewah.new.add (2 ^ 64 - 2)).sizeInBits = 64 ∧
    (Ewah.new.add (2 ^ 64 - 2)).get 0 = some true ∧
    (Ewah.new.add (2 ^ 64 - 2)).cardinality = some 64 := by
  refine ⟨by decide, rfl, rfl, rfl⟩

/-- Claim C9 (refuted at a concrete input): `addStreamOfLiteralWords` with
5 words on a fresh bitmap calls `pushBackMultiple` with
`actualSizeInWords = 1` on a 4-word buffer; the growth test
`actualSizeInWords == cap(buffer)` fails, the Go `copy` silently truncates
to 3 words, and `actualSizeInWords` becomes 6 > `len(buffer)` = 4,
violating `buffer.len() >= actualSizeInWords` (and dropping two words, so
`actualSizeInWords` no longer counts the physically populated words). -/
theorem C9_pushback_overruns_buffer :
    (Ewah.new.addStreamOfLiteralWords [1, 2, 3, 4, 5] 0 5).buffer.length = 4 ∧
    (Ewah.new.addStreamOfLiteralWords [1, 2, 3, 4, 5] 0 5).actualSizeInWords = 6 := by
  refine ⟨rfl, rfl⟩

/-- Claim C2 (refuted at a concrete input): with `a = b = {1,...,63}`
(both built by 63 ascending `Set` calls), the literal word of the operands
is `2^64 - 2`; the merge combiners hand `a[k] & b[k]` and `a[k] | b[k]`
(again `2^64 - 2`) to `add`, whose mistaken `^1` comparison folds them
into runs of ones.  Both `a.And(b)` and `a.Or(b)` then have cardinality
64, while `Cardinality(a) = Cardinality(b) = 63`: the claimed identity
would need `64 + 64 = 63 + 63`. -/
theorem C2_cardinality_identity_fails :
    setAll Ewah.new idx63 = some dense63 ∧
    dense63.cardinality = some 63 ∧
    Option.bind (dense63.and dense63) Ewah.cardinality = some 64 ∧
    Option.bind (dense63.or dense63) Ewah.cardinality = some 64 ∧
    64 + 64 ≠ 63 + 63 := by
  refine ⟨rfl, rfl, rfl, rfl, by decide⟩

/-- Claim C3 (refuted at a concrete input): for `a = {1,...,63}` and
`b = {70}`, at bit index `0 < max(a.Size(), b.Size())` the pointwise value
of `a AND (NOT b)` is `a.Get(0) && !b.Get(0) = false`, but
`a.AndNot(b).Get(0)` is true: discharging `a`'s literal `2^64 - 2` into
the result container goes through `add`, whose `^1` comparison folds it into
a run of ones. -/
theorem C3_andnot_pointwise_fails :
    setAll Ewah.new idx63 = some dense63 ∧
    setAll Ewah.new [70] = some single70 ∧
    0 < max dense63.size single70.size ∧
    Option.bind (dense63.andNot single70) (fun c => c.get 0) = some true ∧
    dense63.get 0 = some false ∧
    single70.get 0 = some false := by
  refine ⟨rfl, rfl, by decide, rfl, rfl, rfl⟩

/-- Claim C4 (refuted at a concrete input): `b = {10}.And({15})` is built
by the public API and ends in a run of zeros with `sizeInBits = 16`.  The
first `Not()` flips that run to ones and, in the partial-tail branch,
stores `numberOfLiteralWords - 1 = -1` into the 31-bit literal-count field
(the source mistakes it for the running length), making the tail marker
claim `2^31 - 1` literals; the second `Not()` then walks those literals
off the end of the buffer - a Go runtime panic instead of restoring `b`. -/
theorem C4_not_not_panics :
    (buildAsc [10]).and (buildAsc [15]) ≠ none ∧
    Option.bind ((buildAsc [10]).and (buildAsc [15])) Ewah.not ≠ none ∧
    Option.bind (Option.bind ((buildAsc [10]).and (buildAsc [15])) Ewah.not) Ewah.not
      = none := by
  refine ⟨by decide, by decide, rfl⟩

/-! ## Claim C6: the `addStreamOfEmptyWords` policy -/

theorem LRLC_eq : LargestRunningLengthCount = 4294967295 := rfl

theorem LRLC_cast : ((LargestRunningLengthCount : Nat) : Int) = 4294967295 := rfl

/-- One unfolding step of the stream adders' segment loop. -/
theorem emptyStreamLoop_succ (v : Bool) (fuel : Nat) (s : Ewah) (number : Int) :
    Ewah.emptyStreamLoop v (fuel + 1) s number =
      if (LargestRunningLengthCount : Int) ≤ number then
        Ewah.emptyStreamLoop v fuel
          ((if v then s.newMarker.rlwSetBit v else s.newMarker).rlwSetRL
            (LargestRunningLengthCount : Int))
          (number - LargestRunningLengthCount)
      else if 0 < number then
        (if v then s.newMarker.rlwSetBit v else s.newMarker).rlwSetRL number
      else s := rfl

/-- One unfolding step of the policy's full-segment opener. -/
theorem policyFullSegs_succ (v : Bool) (q : Nat) (s : Ewah) :
    policyFullSegs v (q + 1) s =
      policyFullSegs v q
        ((if v then s.newMarker.rlwSetBit v else s.newMarker).rlwSetRL
          (LargestRunningLengthCount : Int)) := rfl

/-- The source's fuelled segment loop computes the closed-form policy:
`rest / LargestRunningLengthCount` full segments and a remainder segment
when `rest` is not an exact multiple. -/
theorem emptyStreamLoop_policy (v : Bool) :
    ∀ (k : Nat) (s : Ewah) (rest : Int), 0 ≤ rest →
      rest.toNat / LargestRunningLengthCount = k →
      Ewah.emptyStreamLoop v (k + 1) s rest =
        (let r := rest.toNat % LargestRunningLengthCount
         let s' := policyFullSegs v k s
         if 0 < r then
           (if v then s'.newMarker.rlwSetBit v else s'.newMarker).rlwSetRL (r : Int)
         else s') := by
  intro k
  induction k with
  | zero =>
    intro s rest h0 hdiv
    rw [LRLC_eq] at hdiv
    have hmod : rest.toNat % LargestRunningLengthCount = rest.toNat := by
      rw [LRLC_eq]; omega
    have h1 : ¬ ((LargestRunningLengthCount : Int) ≤ rest) := by rw [LRLC_cast]; omega
    by_cases hpos : 0 < rest
    · have h2 : 0 < rest.toNat := by omega
      have hc : ((rest.toNat : Int)) = rest := by omega
      simp only [emptyStreamLoop_succ, policyFullSegs, hmod, if_neg h1, if_pos hpos,
        if_pos h2, hc]
    · have h2 : ¬ 0 < rest.toNat := by omega
      simp only [emptyStreamLoop_succ, policyFullSegs, hmod, if_neg h1, if_neg hpos,
        if_neg h2]
  | succ k ih =>
    intro s rest h0 hdiv
    rw [LRLC_eq] at hdiv
    have hge : (LargestRunningLengthCount : Int) ≤ rest := by rw [LRLC_cast]; omega
    have h0' : (0 : Int) ≤ rest - LargestRunningLengthCount := by rw [LRLC_cast]; omega
    have hdiv' : (rest - LargestRunningLengthCount).toNat / LargestRunningLengthCount = k := by
      rw [LRLC_cast, LRLC_eq]; omega
    have hmod' : (rest - LargestRunningLengthCount).toNat % LargestRunningLengthCount
        = rest.toNat % LargestRunningLengthCount := by
      rw [LRLC_cast, LRLC_eq]; omega
    rw [emptyStreamLoop_succ, if_pos hge, ih _ _ h0' hdiv']
    simp only [hmod', policyFullSegs_succ]

/-- Claim C6, amended (the absorb cap is `LargestLiteralCount`, not
`LargestRunningLengthCount`): for every state, bit value and count,
`addStreamOfEmptyWords(v, n)` is exactly the claimed per-call policy - a
no-op at `n = 0`, otherwise `sizeInBits` grows by `64·n`, up to
`LargestLiteralCount - rl` words are absorbed into the current segment's
running length, and full-length segments (running length
`LargestRunningLengthCount`) plus one remainder segment carry the rest. -/
theorem C6_stream_matches_policy (s : Ewah) (v : Bool) (number : Int) :
    s.addStreamOfEmptyWords v number = streamPolicy LargestLiteralCount s v number := by
  unfold Ewah.addStreamOfEmptyWords streamPolicy Ewah.emptyStreamBody
  by_cases h0 : number = 0
  · simp [h0]
  · rw [if_neg h0, if_neg h0]
    refine emptyStreamLoop_policy v _ _ _ ?_ rfl
    exact sub_nonneg.mpr (min_le_left _ _)

/-- Claim C6 as stated is false of the code: on a fresh bitmap (which
satisfies the segment invariants) with `n = 2^31`, the claimed policy with
absorb cap `LargestRunningLengthCount - rl = 2^32 - 1` would absorb all of
`n` into the current segment (one marker word), but the source, computing
the cap from `LargestLiteralCount`, absorbs only `2^31 - 1` words and
opens a remainder segment: two marker words. -/
theorem C6_policy_counterexample :
    Ewah.addStreamOfEmptyWords Ewah.new false (2 ^ 31) ≠
      streamPolicy LargestRunningLengthCount Ewah.new false (2 ^ 31) ∧
    (Ewah.new.addStreamOfEmptyWords false (2 ^ 31)).actualSizeInWords = 2 ∧
    (streamPolicy LargestRunningLengthCount Ewah.new false (2 ^ 31)).actualSizeInWords = 1 := by
  refine ⟨by decide, rfl, rfl⟩
